import Mathlib

/-!
Verification development for the `native_crypto` AEAD codec
(`src/native_crypto/src/crypto.c` and `src/native_crypto/include/native_crypto.h`).

The C file wraps an external cryptographic-primitives collaborator (BoringSSL's
`EVP_AEAD` interface) behind four public operations: `encrypt_aes_gcm_256`,
`decrypt_aes_gcm_256`, `encrypt_chacha20_poly1305`, `decrypt_chacha20_poly1305`.
The control flow of each operation (parameter validation, context initialization,
seal/open invocation, unconditional cleanup, sentinel return values, the
`(int)` cast of the `size_t` output length) is embedded from the source.
The collaborator itself is not part of the repository; it is modelled from the
spec's collaborator boundary (spec section 6): fixed 32-byte key, fixed 16-byte
tag appended to a same-length ciphertext, a fallible context-initialize, a seal
that writes plaintext-length + 16 bytes, and an open that verifies the tag
against ciphertext, key, nonce and AAD, writing nothing on mismatch.

Buffers are lists of bytes.  A C pointer argument is `Option (List Nat)`
(`none` is a null pointer); every `_len` argument of a C input buffer equals
the length of the pointed-to list, except `aad_len`, which is kept as a
separate argument because the code never validates the `aad` pointer.
-/

namespace NativeCrypto

/-- The C conversion `(int)n` of a `size_t` value `n` (crypto.c lines 85, 150,
206, 263): two's-complement truncation to 32 bits. -/
def c_int_cast (n : Nat) : Int :=
  if n % 2 ^ 32 < 2 ^ 31 then ((n % 2 ^ 32 : Nat) : Int)
  else ((n % 2 ^ 32 : Nat) : Int) - 2 ^ 32

/-- Lifecycle events of the `EVP_AEAD_CTX` local variable of one call. -/
inductive CtxEvent
  | init_attempt
  | cleanup
deriving DecidableEq, Repr

/-- The observable outcome of one call: the `int` return value, the bytes
written to the caller's output buffer (`none` when nothing is written), and
the algorithm-context lifecycle events in order of occurrence. -/
structure CallResult where
  status : Int
  written : Option (List Nat)
  events : List CtxEvent
deriving DecidableEq, Repr

/-- Modelled from the spec: the `EVP_AEAD` algorithm descriptor of the external
cryptographic-primitives collaborator (spec section 6 and section 2: per-algorithm
key length, tag overhead, context-initialize, seal and open entry points).
The missing code is the BoringSSL library behind `openssl/aead.h`.
A context is the key material it was initialized with. -/
structure EVP_AEAD where
  key_length : Nat
  max_overhead : Nat
  ctx_init : List Nat → Option (List Nat)
  sealOp : List Nat → List Nat → List Nat → List Nat → Nat → Option (List Nat)
  openOp : List Nat → List Nat → List Nat → List Nat → Nat → Option (List Nat)

/-- Modelled from the spec: the default tag length used by the codec.  The spec
fixes the tag to 16 bytes for both algorithms (spec section 3, "tag is fixed
16 bytes"); the constant lives in the external collaborator's header. -/
def EVP_AEAD_DEFAULT_TAG_LENGTH : Nat := 16

/-- Modelled from the spec: byte `i` of the keystream of the ideal stream
cipher underlying both engines (`algId` separates the two algorithms). -/
def keystream (algId : Nat) (key nonce : List Nat) (i : Nat) : Nat :=
  (algId + key.sum + 2 * nonce.sum + 3 * i) % 256

/-- Modelled from the spec: stream encryption (equal to stream decryption):
xor the data with the key/nonce keystream, preserving the length. -/
def streamXor (algId : Nat) (key nonce data : List Nat) : List Nat :=
  (List.range data.length).map fun i => Nat.xor (data.getD i 0) (keystream algId key nonce i)

/-- Position-weighted byte sum used by the ideal authenticator: byte at
absolute position `i` has weight `2 ^ (8 * i % 120)`. -/
def bsum : List Nat → Nat → Nat
  | [], _ => 0
  | x :: xs, i => 2 ^ (8 * i % 120) * x + bsum xs (i + 1)

/-- Modelled from the spec: the ideal 128-bit authenticator value binding key,
nonce, AAD and ciphertext (spec glossary: the tag is "verified on decrypt;
mismatch indicates tampering or wrong parameters"). -/
def tagVal (algId : Nat) (key nonce aad c : List Nat) : Nat :=
  (algId + bsum key 0 + 3 * bsum nonce 0 + 5 * bsum aad 0 + 7 * bsum c 0) % 2 ^ 128

/-- Modelled from the spec: the 16 tag bytes, the base-256 little-endian
digits of `tagVal`. -/
def tagBytes (algId : Nat) (key nonce aad c : List Nat) : List Nat :=
  (List.range 16).map fun i => tagVal algId key nonce aad c / 256 ^ i % 256

/-- Modelled from the spec: an ideal AEAD engine of the external collaborator.
`seal` appends the 16 tag bytes to the same-length ciphertext and fails when
the declared output capacity is too small; `openOp` fails when the input is
shorter than the tag, when the tag does not verify, or when the capacity is
too small, and on failure writes nothing. -/
def idealAEAD (algId : Nat) : EVP_AEAD where
  key_length := 32
  max_overhead := 16
  ctx_init := fun key => some key
  sealOp := fun ctx nonce plaintext aad max_out =>
    if plaintext.length + 16 ≤ max_out then
      some (streamXor algId ctx nonce plaintext ++
        tagBytes algId ctx nonce aad (streamXor algId ctx nonce plaintext))
    else none
  openOp := fun ctx nonce ct aad max_out =>
    if 16 ≤ ct.length ∧
        ct.drop (ct.length - 16) = tagBytes algId ctx nonce aad (ct.take (ct.length - 16)) ∧
        ct.length - 16 ≤ max_out then
      some (streamXor algId ctx nonce (ct.take (ct.length - 16)))
    else none

/-- Modelled from the spec: the AES-256-GCM engine descriptor (crypto.c line 51). -/
def EVP_aead_aes_256_gcm : EVP_AEAD := idealAEAD 1

/-- Modelled from the spec: the ChaCha20-Poly1305 engine descriptor (crypto.c line 180). -/
def EVP_aead_chacha20_poly1305 : EVP_AEAD := idealAEAD 2

/-- Modelled from the spec: a misconfigured engine whose context
initialization fails (spec section 7: `EngineFailure`, "abnormal/rare;
typically misconfiguration of the collaborator"). -/
def failingAEAD : EVP_AEAD where
  key_length := 32
  max_overhead := 16
  ctx_init := fun _ => none
  sealOp := fun _ _ _ _ _ => none
  openOp := fun _ _ _ _ _ => none

/-- Embedding of the encrypt skeleton shared by `encrypt_aes_gcm_256`
(crypto.c lines 45-92) and `encrypt_chacha20_poly1305` (lines 174-212),
parameterized by the algorithm descriptor that the two functions hardcode.
Mirrors, in order: `max_out_len = plaintext_len + EVP_AEAD_max_overhead(...)`
(a `size_t`, hence the wrap at `2 ^ 64`), the null-pointer check, the
`EVP_AEAD_key_length(aead_alg) != 32` check, the `nonce_len != 12` check,
`EVP_AEAD_CTX_init` with `goto cleanup` on failure, `EVP_AEAD_CTX_seal` with
`goto cleanup` on failure, `result_status = (int)actual_out_len`, and the
unconditional `EVP_AEAD_CTX_cleanup`. -/
def encrypt_impl (aead_alg : EVP_AEAD) (plaintext : Option (List Nat))
    (key : Option (List Nat)) (nonce : Option (List Nat))
    (aad : Option (List Nat)) (aad_len : Nat) (out_nonnull : Bool) : CallResult :=
  let plaintext_len := (plaintext.getD []).length
  let max_out_len := (plaintext_len + aead_alg.max_overhead) % 2 ^ 64
  if plaintext = none ∨ key = none ∨ nonce = none ∨ out_nonnull = false then
    ⟨-1, none, []⟩
  else if aead_alg.key_length ≠ 32 then ⟨-1, none, []⟩
  else if (nonce.getD []).length ≠ 12 then ⟨-1, none, []⟩
  else
    match aead_alg.ctx_init (key.getD []) with
    | none => ⟨-1, none, [.init_attempt, .cleanup]⟩
    | some ctx =>
      match aead_alg.sealOp ctx (nonce.getD []) (plaintext.getD [])
          ((aad.getD []).take aad_len) max_out_len with
      | none => ⟨-1, none, [.init_attempt, .cleanup]⟩
      | some out => ⟨c_int_cast out.length, some out, [.init_attempt, .cleanup]⟩

/-- Embedding of the decrypt skeleton shared by `decrypt_aes_gcm_256`
(crypto.c lines 110-156) and `decrypt_chacha20_poly1305` (lines 230-269).
Mirrors, in order: `max_out_len = ciphertext_tag_len`, the null-pointer
check, the key-length-constant check, the `nonce_len != 12` check, the
`ciphertext_tag_len < EVP_AEAD_DEFAULT_TAG_LENGTH` short-input check
returning `-2` before any context exists, `EVP_AEAD_CTX_init` with
`goto cleanup` on failure (leaving `result_status = -1`),
`EVP_AEAD_CTX_open` setting `result_status = -2` on failure, the success
assignment `result_status = (int)actual_out_len`, and the unconditional
`EVP_AEAD_CTX_cleanup`. -/
def decrypt_impl (aead_alg : EVP_AEAD) (ciphertext_tag : Option (List Nat))
    (key : Option (List Nat)) (nonce : Option (List Nat))
    (aad : Option (List Nat)) (aad_len : Nat) (out_nonnull : Bool) : CallResult :=
  let ciphertext_tag_len := (ciphertext_tag.getD []).length
  let max_out_len := ciphertext_tag_len
  if ciphertext_tag = none ∨ key = none ∨ nonce = none ∨ out_nonnull = false then
    ⟨-1, none, []⟩
  else if aead_alg.key_length ≠ 32 then ⟨-1, none, []⟩
  else if (nonce.getD []).length ≠ 12 then ⟨-1, none, []⟩
  else if ciphertext_tag_len < EVP_AEAD_DEFAULT_TAG_LENGTH then ⟨-2, none, []⟩
  else
    match aead_alg.ctx_init (key.getD []) with
    | none => ⟨-1, none, [.init_attempt, .cleanup]⟩
    | some ctx =>
      match aead_alg.openOp ctx (nonce.getD []) (ciphertext_tag.getD [])
          ((aad.getD []).take aad_len) max_out_len with
      | none => ⟨-2, none, [.init_attempt, .cleanup]⟩
      | some pt => ⟨c_int_cast pt.length, some pt, [.init_attempt, .cleanup]⟩

/-- `encrypt_aes_gcm_256` (crypto.c lines 45-92). -/
def encrypt_aes_gcm_256 : Option (List Nat) → Option (List Nat) → Option (List Nat) →
    Option (List Nat) → Nat → Bool → CallResult :=
  encrypt_impl EVP_aead_aes_256_gcm

/-- `decrypt_aes_gcm_256` (crypto.c lines 110-156). -/
def decrypt_aes_gcm_256 : Option (List Nat) → Option (List Nat) → Option (List Nat) →
    Option (List Nat) → Nat → Bool → CallResult :=
  decrypt_impl EVP_aead_aes_256_gcm

/-- `encrypt_chacha20_poly1305` (crypto.c lines 174-212). -/
def encrypt_chacha20_poly1305 : Option (List Nat) → Option (List Nat) → Option (List Nat) →
    Option (List Nat) → Nat → Bool → CallResult :=
  encrypt_impl EVP_aead_chacha20_poly1305

/-- `decrypt_chacha20_poly1305` (crypto.c lines 230-269). -/
def decrypt_chacha20_poly1305 : Option (List Nat) → Option (List Nat) → Option (List Nat) →
    Option (List Nat) → Nat → Bool → CallResult :=
  decrypt_impl EVP_aead_chacha20_poly1305

/-- The sealed output (ciphertext followed by the 16 tag bytes) produced by a
successful encrypt call of the ideal engine `algId`. -/
def sealedBytes (algId : Nat) (key nonce aad p : List Nat) : List Nat :=
  streamXor algId key nonce p ++ tagBytes algId key nonce aad (streamXor algId key nonce p)

/-- Flip bit `j` of the value `x` (arithmetic characterization: subtract
`2 ^ j` when the bit is set, add it when it is clear). -/
def flipBit (x j : Nat) : Nat :=
  if x / 2 ^ j % 2 = 1 then x - 2 ^ j else x + 2 ^ j

/-- Flip bit `j` of byte `i` of a buffer. -/
def flipByteBit (l : List Nat) (i j : Nat) : List Nat :=
  l.set i (flipBit (l.getD i 0) j)

/-! ### Basic facts about the modelled primitive -/

lemma getD_eq_getElem (l : List Nat) (i : Nat) (h : i < l.length) : l.getD i 0 = l[i] := by
  rw [List.getD_eq_getElem?_getD, List.getElem?_eq_getElem h, Option.getD_some]

lemma length_streamXor (g : Nat) (k n d : List Nat) :
    (streamXor g k n d).length = d.length := by
  simp [streamXor]

lemma getElem_streamXor (g : Nat) (k n d : List Nat) (i : Nat)
    (h : i < (streamXor g k n d).length) :
    (streamXor g k n d)[i] = Nat.xor (d.getD i 0) (keystream g k n i) := by
  simp [streamXor]

lemma streamXor_streamXor (g : Nat) (k n p : List Nat) :
    streamXor g k n (streamXor g k n p) = p := by
  apply List.ext_getElem
  · simp [length_streamXor]
  · intro i h1 h2
    rw [getElem_streamXor, getD_eq_getElem _ _ (by simp_all [length_streamXor]),
      getElem_streamXor, ← getD_eq_getElem p i h2]
    exact Nat.xor_cancel_right _ _

lemma length_tagBytes (g : Nat) (k n a c : List Nat) : (tagBytes g k n a c).length = 16 := by
  simp [tagBytes]

lemma length_sealedBytes (g : Nat) (k n a p : List Nat) :
    (sealedBytes g k n a p).length = p.length + 16 := by
  simp [sealedBytes, length_streamXor, length_tagBytes]

lemma take_append_tag (c t : List Nat) (ht : t.length = 16) :
    (c ++ t).take ((c ++ t).length - 16) = c := by
  have h : (c ++ t).length - 16 = c.length := by simp [ht]
  rw [h]
  exact List.take_left c t

lemma drop_append_tag (c t : List Nat) (ht : t.length = 16) :
    (c ++ t).drop ((c ++ t).length - 16) = t := by
  have h : (c ++ t).length - 16 = c.length := by simp [ht]
  rw [h]
  exact List.drop_left c t

lemma c_int_cast_of_lt {m : Nat} (h : m < 2 ^ 31) : c_int_cast m = (m : Int) := by
  unfold c_int_cast
  rw [Nat.mod_eq_of_lt (show m < 2 ^ 32 by omega), if_pos h]

lemma c_int_cast_nonneg {m : Nat} (h : m < 2 ^ 31) : 0 ≤ c_int_cast m := by
  rw [c_int_cast_of_lt h]
  exact Int.ofNat_nonneg m

lemma two_pow_le_of_bit (x j : Nat) (h : x / 2 ^ j % 2 = 1) : 2 ^ j ≤ x := by
  by_contra hlt
  push_neg at hlt
  rw [Nat.div_eq_of_lt hlt] at h
  simp at h

lemma flipBit_delta (x j : Nat) : flipBit x j = x + 2 ^ j ∨ x = flipBit x j + 2 ^ j := by
  unfold flipBit
  by_cases h : x / 2 ^ j % 2 = 1
  · right
    rw [if_pos h]
    have := two_pow_le_of_bit x j h
    omega
  · left
    rw [if_neg h]

lemma flipBit_ne (x j : Nat) : flipBit x j ≠ x := by
  have h2 : 0 < 2 ^ j := Nat.two_pow_pos j
  rcases flipBit_delta x j with h | h <;> omega

lemma length_flipByteBit (l : List Nat) (i j : Nat) :
    (flipByteBit l i j).length = l.length := by
  simp [flipByteBit]

/-! ### Single-bit flips change the authenticator -/

lemma bsum_set (l : List Nat) (i s : Nat) (y : Nat) (hi : i < l.length) :
    bsum (l.set i y) s + 2 ^ (8 * (s + i) % 120) * l.getD i 0 =
      bsum l s + 2 ^ (8 * (s + i) % 120) * y := by
  induction l generalizing i s with
  | nil => simp at hi
  | cons x xs ih =>
    cases i with
    | zero =>
      show bsum (y :: xs) s + 2 ^ (8 * (s + 0) % 120) * (x :: xs).getD 0 0 =
        bsum (x :: xs) s + 2 ^ (8 * (s + 0) % 120) * y
      simp only [List.getD_cons_zero, Nat.add_zero]
      show 2 ^ (8 * s % 120) * y + bsum xs (s + 1) + 2 ^ (8 * s % 120) * x =
        2 ^ (8 * s % 120) * x + bsum xs (s + 1) + 2 ^ (8 * s % 120) * y
      ring
    | succ i =>
      have hi' : i < xs.length := by simpa using hi
      have key := ih i (s + 1) hi'
      show bsum (x :: xs.set i y) s + 2 ^ (8 * (s + (i + 1)) % 120) * (x :: xs).getD (i + 1) 0 =
        bsum (x :: xs) s + 2 ^ (8 * (s + (i + 1)) % 120) * y
      simp only [List.getD_cons_succ]
      show 2 ^ (8 * s % 120) * x + bsum (xs.set i y) (s + 1) +
          2 ^ (8 * (s + (i + 1)) % 120) * xs.getD i 0 =
        2 ^ (8 * s % 120) * x + bsum xs (s + 1) + 2 ^ (8 * (s + (i + 1)) % 120) * y
      have he : s + (i + 1) = s + 1 + i := by omega
      rw [he]
      revert key
      generalize (2 : ℕ) ^ (8 * s % 120) * x = P
      generalize bsum (xs.set i y) (s + 1) = B
      generalize (2 : ℕ) ^ (8 * (s + 1 + i) % 120) * xs.getD i 0 = C
      generalize bsum xs (s + 1) = D
      generalize (2 : ℕ) ^ (8 * (s + 1 + i) % 120) * y = E2
      intro key
      omega

lemma bsum_flip (l : List Nat) (i j : Nat) (hi : i < l.length) :
    bsum (flipByteBit l i j) 0 = bsum l 0 + 2 ^ (8 * i % 120 + j) ∨
      bsum l 0 = bsum (flipByteBit l i j) 0 + 2 ^ (8 * i % 120 + j) := by
  unfold flipByteBit
  have hset := bsum_set l i 0 (flipBit (l.getD i 0) j) hi
  rw [Nat.zero_add] at hset
  have hw : (2 : ℕ) ^ (8 * i % 120) * 2 ^ j = 2 ^ (8 * i % 120 + j) := (pow_add 2 _ j).symm
  rcases flipBit_delta (l.getD i 0) j with h | h
  · left
    rw [h] at hset ⊢
    rw [Nat.mul_add, hw] at hset
    revert hset
    generalize (2 : ℕ) ^ (8 * i % 120) * l.getD i 0 = P
    generalize (2 : ℕ) ^ (8 * i % 120 + j) = Q
    generalize bsum (l.set i (l.getD i 0 + 2 ^ j)) 0 = A
    generalize bsum l 0 = B
    intro hset
    omega
  · right
    have hWx : 2 ^ (8 * i % 120) * l.getD i 0 =
        2 ^ (8 * i % 120) * flipBit (l.getD i 0) j + 2 ^ (8 * i % 120 + j) := by
      nth_rewrite 1 [h]
      rw [Nat.mul_add, hw]
    rw [hWx] at hset
    revert hset
    generalize (2 : ℕ) ^ (8 * i % 120) * flipBit (l.getD i 0) j = P
    generalize (2 : ℕ) ^ (8 * i % 120 + j) = Q
    generalize bsum (l.set i (flipBit (l.getD i 0) j)) 0 = A
    generalize bsum l 0 = B
    intro hset
    omega

lemma digits_inj (k : Nat) : ∀ (W W' : Nat), W < 256 ^ k → W' < 256 ^ k →
    (∀ i, i < k → W / 256 ^ i % 256 = W' / 256 ^ i % 256) → W = W' := by
  induction k with
  | zero =>
    intro W W' hW hW' _
    simp only [pow_zero, Nat.lt_one_iff] at hW hW'
    omega
  | succ k ih =>
    intro W W' hW hW' hdig
    have h0 := hdig 0 (Nat.succ_pos k)
    rw [pow_zero, Nat.div_one, Nat.div_one] at h0
    have hq : W / 256 = W' / 256 := by
      apply ih
      · rw [Nat.div_lt_iff_lt_mul (by norm_num)]
        calc W < 256 ^ (k + 1) := hW
          _ = 256 ^ k * 256 := by rw [pow_succ]
      · rw [Nat.div_lt_iff_lt_mul (by norm_num)]
        calc W' < 256 ^ (k + 1) := hW'
          _ = 256 ^ k * 256 := by rw [pow_succ]
      · intro i hi
        have hd := hdig (i + 1) (by omega)
        have hdd : ∀ (M : Nat), M / 256 / 256 ^ i = M / 256 ^ (i + 1) := by
          intro M
          rw [Nat.div_div_eq_div_mul, pow_succ, mul_comm (256 ^ i) 256]
        rw [hdd, hdd]
        exact hd
    omega

lemma getD_map_range (f : Nat → Nat) (L i : Nat) (hi : i < L) :
    ((List.range L).map f).getD i 0 = f i := by
  rw [List.getD_eq_getElem?_getD, List.getElem?_eq_getElem (by simpa using hi)]
  simp

lemma tagVal_lt (g : Nat) (k n a c : List Nat) : tagVal g k n a c < 2 ^ 128 :=
  Nat.mod_lt _ (by norm_num)

lemma tagBytes_ne_of_tagVal_ne {g1 g2 : Nat} {k1 n1 a1 c1 k2 n2 a2 c2 : List Nat}
    (h : tagVal g1 k1 n1 a1 c1 ≠ tagVal g2 k2 n2 a2 c2) :
    tagBytes g1 k1 n1 a1 c1 ≠ tagBytes g2 k2 n2 a2 c2 := by
  intro heq
  apply h
  have h128 : (2 : ℕ) ^ 128 = 256 ^ 16 := by norm_num
  apply digits_inj 16 _ _ (h128 ▸ tagVal_lt g1 k1 n1 a1 c1) (h128 ▸ tagVal_lt g2 k2 n2 a2 c2)
  intro i hi
  have hgd := congrArg (fun l => l.getD i 0) heq
  simp only [tagBytes] at hgd
  rw [getD_map_range _ _ _ hi, getD_map_range _ _ _ hi] at hgd
  exact hgd

lemma not_dvd_mul_two_pow (m e : Nat) (hm : m % 2 = 1) (he : e < 128) :
    ¬ (2 ^ 128 ∣ m * 2 ^ e) := by
  intro hdvd
  have hcop : Nat.Coprime (2 ^ 128) m := by
    apply Nat.Coprime.pow_left
    rw [Nat.Prime.coprime_iff_not_dvd Nat.prime_two]
    omega
  have h2 : 2 ^ 128 ∣ 2 ^ e := hcop.dvd_of_dvd_mul_left hdvd
  have := (Nat.pow_dvd_pow_iff_le_right (by norm_num : (1 : ℕ) < 2)).mp h2
  omega

lemma mod_add_ne (S m e : Nat) (hm : m % 2 = 1) (he : e < 128) :
    (S + m * 2 ^ e) % 2 ^ 128 ≠ S % 2 ^ 128 := by
  intro h
  have hmodeq : Nat.ModEq (2 ^ 128) S (S + m * 2 ^ e) := h.symm
  have hdvd : 2 ^ 128 ∣ S + m * 2 ^ e - S :=
    (Nat.modEq_iff_dvd' (Nat.le_add_right S _)).mp hmodeq
  rw [Nat.add_sub_cancel_left] at hdvd
  exact not_dvd_mul_two_pow m e hm he hdvd

lemma tagVal_ne_of_delta {T1 T2 : Nat} (m e : Nat) (hm : m % 2 = 1) (he : e < 128)
    (h : T1 = T2 + m * 2 ^ e ∨ T2 = T1 + m * 2 ^ e) :
    T1 % 2 ^ 128 ≠ T2 % 2 ^ 128 := by
  rcases h with h | h
  · rw [h]
    exact mod_add_ne T2 m e hm he
  · rw [h]
    exact Ne.symm (mod_add_ne T1 m e hm he)

lemma exp_lt_128 (i j : Nat) (hj : j < 8) : 8 * i % 120 + j < 128 := by
  have := Nat.mod_lt (8 * i) (show 0 < 120 by norm_num)
  omega

lemma tagVal_flip_key (g : Nat) (k n a c : List Nat) (i j : Nat)
    (hi : i < k.length) (hj : j < 8) :
    tagVal g (flipByteBit k i j) n a c ≠ tagVal g k n a c := by
  unfold tagVal
  apply tagVal_ne_of_delta 1 (8 * i % 120 + j) (by norm_num) (exp_lt_128 i j hj)
  rcases bsum_flip k i j hi with h | h
  · left
    omega
  · right
    omega

lemma tagVal_flip_nonce (g : Nat) (k n a c : List Nat) (i j : Nat)
    (hi : i < n.length) (hj : j < 8) :
    tagVal g k (flipByteBit n i j) a c ≠ tagVal g k n a c := by
  unfold tagVal
  apply tagVal_ne_of_delta 3 (8 * i % 120 + j) (by norm_num) (exp_lt_128 i j hj)
  rcases bsum_flip n i j hi with h | h
  · left
    omega
  · right
    omega

lemma tagVal_flip_aad (g : Nat) (k n a c : List Nat) (i j : Nat)
    (hi : i < a.length) (hj : j < 8) :
    tagVal g k n (flipByteBit a i j) c ≠ tagVal g k n a c := by
  unfold tagVal
  apply tagVal_ne_of_delta 5 (8 * i % 120 + j) (by norm_num) (exp_lt_128 i j hj)
  rcases bsum_flip a i j hi with h | h
  · left
    omega
  · right
    omega

lemma tagVal_flip_cipher (g : Nat) (k n a c : List Nat) (i j : Nat)
    (hi : i < c.length) (hj : j < 8) :
    tagVal g k n a (flipByteBit c i j) ≠ tagVal g k n a c := by
  unfold tagVal
  apply tagVal_ne_of_delta 7 (8 * i % 120 + j) (by norm_num) (exp_lt_128 i j hj)
  rcases bsum_flip c i j hi with h | h
  · left
    omega
  · right
    omega

lemma tagBytes_flip_key (g : Nat) (k n a c : List Nat) (i j : Nat)
    (hi : i < k.length) (hj : j < 8) :
    tagBytes g (flipByteBit k i j) n a c ≠ tagBytes g k n a c :=
  tagBytes_ne_of_tagVal_ne (tagVal_flip_key g k n a c i j hi hj)

lemma tagBytes_flip_nonce (g : Nat) (k n a c : List Nat) (i j : Nat)
    (hi : i < n.length) (hj : j < 8) :
    tagBytes g k (flipByteBit n i j) a c ≠ tagBytes g k n a c :=
  tagBytes_ne_of_tagVal_ne (tagVal_flip_nonce g k n a c i j hi hj)

lemma tagBytes_flip_aad (g : Nat) (k n a c : List Nat) (i j : Nat)
    (hi : i < a.length) (hj : j < 8) :
    tagBytes g k n (flipByteBit a i j) c ≠ tagBytes g k n a c :=
  tagBytes_ne_of_tagVal_ne (tagVal_flip_aad g k n a c i j hi hj)

lemma tagBytes_flip_cipher (g : Nat) (k n a c : List Nat) (i j : Nat)
    (hi : i < c.length) (hj : j < 8) :
    tagBytes g k n a (flipByteBit c i j) ≠ tagBytes g k n a c :=
  tagBytes_ne_of_tagVal_ne (tagVal_flip_cipher g k n a c i j hi hj)

/-! ### Reduction of the codec on the ideal engines -/

lemma openOp_ideal_fail (g : Nat) (ctx n a ct : List Nat) (mo : Nat)
    (hne : ct.drop (ct.length - 16) ≠ tagBytes g ctx n a (ct.take (ct.length - 16))) :
    (idealAEAD g).openOp ctx n ct a mo = none := by
  simp only [idealAEAD]
  rw [if_neg]
  rintro ⟨-, h2, -⟩
  exact hne h2

lemma openOp_ideal_success (g : Nat) (k n a c t : List Nat) (mo : Nat)
    (ht : t = tagBytes g k n a c) (hmo : c.length ≤ mo) :
    (idealAEAD g).openOp k n (c ++ t) a mo = some (streamXor g k n c) := by
  have ht16 : t.length = 16 := by rw [ht, length_tagBytes]
  have hct : (c ++ t).length - 16 = c.length := by simp [ht16]
  simp only [idealAEAD]
  rw [if_pos]
  · rw [take_append_tag c t ht16]
  · refine ⟨by simp [ht16], ?_, ?_⟩
    · rw [take_append_tag c t ht16, drop_append_tag c t ht16]
      exact ht
    · rw [hct]
      exact hmo

lemma decrypt_ideal_open_none (g : Nat) (ct k n a : List Nat) (alen : Nat)
    (hn : n.length = 12) (h16 : 16 ≤ ct.length)
    (hopen : (idealAEAD g).openOp k n ct (a.take alen) ct.length = none) :
    decrypt_impl (idealAEAD g) (some ct) (some k) (some n) (some a) alen true =
      ⟨-2, none, [.init_attempt, .cleanup]⟩ := by
  unfold decrypt_impl
  simp only [Option.getD_some, idealAEAD, EVP_AEAD_DEFAULT_TAG_LENGTH] at hopen ⊢
  rw [if_neg (by simp), if_neg (by simp), if_neg (by simp [hn]), if_neg (by omega), hopen]

lemma decrypt_ideal_open_some (g : Nat) (ct k n a : List Nat) (alen : Nat) (pt : List Nat)
    (hn : n.length = 12) (h16 : 16 ≤ ct.length)
    (hopen : (idealAEAD g).openOp k n ct (a.take alen) ct.length = some pt) :
    decrypt_impl (idealAEAD g) (some ct) (some k) (some n) (some a) alen true =
      ⟨c_int_cast pt.length, some pt, [.init_attempt, .cleanup]⟩ := by
  unfold decrypt_impl
  simp only [Option.getD_some, idealAEAD, EVP_AEAD_DEFAULT_TAG_LENGTH] at hopen ⊢
  rw [if_neg (by simp), if_neg (by simp), if_neg (by simp [hn]), if_neg (by omega), hopen]

lemma encrypt_ideal_eq (g : Nat) (p k n a : List Nat) (alen : Nat)
    (hn : n.length = 12) (h64 : p.length + 16 < 2 ^ 64) :
    encrypt_impl (idealAEAD g) (some p) (some k) (some n) (some a) alen true =
      ⟨c_int_cast (p.length + 16), some (sealedBytes g k n (a.take alen) p),
        [.init_attempt, .cleanup]⟩ := by
  unfold encrypt_impl
  simp only [Option.getD_some, idealAEAD]
  rw [if_neg (by simp), if_neg (by simp), if_neg (by simp [hn])]
  rw [Nat.mod_eq_of_lt (show p.length + 16 < 2 ^ 64 by omega)]
  rw [if_pos (by omega)]
  have hlen : (streamXor g k n p ++
      tagBytes g k n (a.take alen) (streamXor g k n p)).length = p.length + 16 := by
    simp [length_streamXor, length_tagBytes]
  show (⟨c_int_cast (streamXor g k n p ++
      tagBytes g k n (a.take alen) (streamXor g k n p)).length,
    some (streamXor g k n p ++ tagBytes g k n (a.take alen) (streamXor g k n p)),
    [.init_attempt, .cleanup]⟩ : CallResult) = _
  rw [hlen]
  rfl

lemma decrypt_ideal_roundtrip (g : Nat) (k n a p : List Nat) (hn : n.length = 12) :
    decrypt_impl (idealAEAD g) (some (sealedBytes g k n a p)) (some k) (some n) (some a)
      a.length true = ⟨c_int_cast p.length, some p, [.init_attempt, .cleanup]⟩ := by
  have h16 : 16 ≤ (sealedBytes g k n a p).length := by
    rw [length_sealedBytes]
    omega
  have hopen : (idealAEAD g).openOp k n (sealedBytes g k n a p) (a.take a.length)
      (sealedBytes g k n a p).length = some p := by
    rw [List.take_length]
    show (idealAEAD g).openOp k n
      (streamXor g k n p ++ tagBytes g k n a (streamXor g k n p)) a _ = some p
    rw [openOp_ideal_success g k n a (streamXor g k n p)
      (tagBytes g k n a (streamXor g k n p)) _ rfl
      (by rw [length_sealedBytes, length_streamXor]; omega)]
    rw [streamXor_streamXor]
  exact decrypt_ideal_open_some g (sealedBytes g k n a p) k n a a.length p hn h16 hopen

/-! ### Tampered decrypt calls fail with the authentication sentinel -/

lemma getD_set_self (l : List Nat) (m y : Nat) (hm : m < l.length) :
    (l.set m y).getD m 0 = y := by
  rw [getD_eq_getElem _ _ (by simpa using hm)]
  exact List.getElem_set_self (by simpa using hm)

lemma flipByteBit_ne (l : List Nat) (m j : Nat) (hm : m < l.length) :
    flipByteBit l m j ≠ l := by
  intro heq
  have hgd := congrArg (fun s => s.getD m 0) heq
  simp only [flipByteBit] at hgd
  rw [getD_set_self l m _ hm] at hgd
  exact flipBit_ne (l.getD m 0) j hgd

lemma decrypt_ideal_tamper_ct (g : Nat) (k n a c t : List Nat) (i j : Nat)
    (hn : n.length = 12) (ht : t = tagBytes g k n a c)
    (hi : i < c.length + 16) (hj : j < 8) :
    decrypt_impl (idealAEAD g) (some (flipByteBit (c ++ t) i j)) (some k) (some n)
      (some a) a.length true = ⟨-2, none, [.init_attempt, .cleanup]⟩ := by
  have ht16 : t.length = 16 := by rw [ht, length_tagBytes]
  have h16 : 16 ≤ (flipByteBit (c ++ t) i j).length := by
    rw [length_flipByteBit]
    simp [ht16]
  apply decrypt_ideal_open_none g _ k n a a.length hn h16
  rw [List.take_length]
  by_cases hic : i < c.length
  · have hflip : flipByteBit (c ++ t) i j = flipByteBit c i j ++ t := by
      unfold flipByteBit
      rw [List.getD_append _ _ _ _ hic, List.set_append_left _ _ hic]
    rw [hflip]
    apply openOp_ideal_fail
    have hc'16 : t.length = 16 := ht16
    rw [take_append_tag _ t ht16, drop_append_tag _ t ht16, ht]
    exact Ne.symm (tagBytes_flip_cipher g k n a c i j hic hj)
  · push_neg at hic
    have him : i - c.length < t.length := by omega
    have hflip : flipByteBit (c ++ t) i j = c ++ flipByteBit t (i - c.length) j := by
      unfold flipByteBit
      rw [List.getD_append_right _ _ _ _ hic, List.set_append_right _ _ hic]
    rw [hflip]
    apply openOp_ideal_fail
    have ht'16 : (flipByteBit t (i - c.length) j).length = 16 := by
      rw [length_flipByteBit, ht16]
    rw [take_append_tag _ _ ht'16, drop_append_tag _ _ ht'16, ← ht]
    exact flipByteBit_ne t (i - c.length) j him

lemma decrypt_ideal_tamper_key (g : Nat) (k n a c t : List Nat) (i j : Nat)
    (hn : n.length = 12) (ht : t = tagBytes g k n a c)
    (hik : i < k.length) (hj : j < 8) :
    decrypt_impl (idealAEAD g) (some (c ++ t)) (some (flipByteBit k i j)) (some n)
      (some a) a.length true = ⟨-2, none, [.init_attempt, .cleanup]⟩ := by
  have ht16 : t.length = 16 := by rw [ht, length_tagBytes]
  apply decrypt_ideal_open_none g _ _ n a a.length hn (by simp [ht16])
  rw [List.take_length]
  apply openOp_ideal_fail
  rw [take_append_tag _ t ht16, drop_append_tag _ t ht16, ht]
  intro heq
  exact tagBytes_flip_key g k n a c i j hik hj heq.symm

lemma decrypt_ideal_tamper_nonce (g : Nat) (k n a c t : List Nat) (i j : Nat)
    (hn : n.length = 12) (ht : t = tagBytes g k n a c)
    (hin : i < n.length) (hj : j < 8) :
    decrypt_impl (idealAEAD g) (some (c ++ t)) (some k) (some (flipByteBit n i j))
      (some a) a.length true = ⟨-2, none, [.init_attempt, .cleanup]⟩ := by
  have ht16 : t.length = 16 := by rw [ht, length_tagBytes]
  have hn' : (flipByteBit n i j).length = 12 := by rw [length_flipByteBit, hn]
  apply decrypt_ideal_open_none g _ _ _ a a.length hn' (by simp [ht16])
  rw [List.take_length]
  apply openOp_ideal_fail
  rw [take_append_tag _ t ht16, drop_append_tag _ t ht16, ht]
  intro heq
  exact tagBytes_flip_nonce g k n a c i j hin hj heq.symm

lemma decrypt_ideal_tamper_aad (g : Nat) (k n a c t : List Nat) (i j : Nat)
    (hn : n.length = 12) (ht : t = tagBytes g k n a c)
    (hia : i < a.length) (hj : j < 8) :
    decrypt_impl (idealAEAD g) (some (c ++ t)) (some k) (some n)
      (some (flipByteBit a i j)) a.length true = ⟨-2, none, [.init_attempt, .cleanup]⟩ := by
  have ht16 : t.length = 16 := by rw [ht, length_tagBytes]
  have htake : (flipByteBit a i j).take a.length = flipByteBit a i j := by
    rw [← length_flipByteBit a i j]
    exact List.take_length _
  apply decrypt_ideal_open_none g _ _ _ _ a.length hn (by simp [ht16])
  rw [htake]
  apply openOp_ideal_fail
  rw [take_append_tag _ t ht16, drop_append_tag _ t ht16, ht]
  intro heq
  exact tagBytes_flip_aad g k n a c i j hia hj heq.symm

/-! ### Full case characterization of the codec on the ideal engines -/

lemma encrypt_ideal_char (g : Nat) (p? k? n? a? : Option (List Nat)) (alen : Nat) (ob : Bool) :
    encrypt_impl (idealAEAD g) p? k? n? a? alen ob =
      if p? = none ∨ k? = none ∨ n? = none ∨ ob = false then ⟨-1, none, []⟩
      else if (n?.getD []).length ≠ 12 then ⟨-1, none, []⟩
      else if (p?.getD []).length + 16 ≤ ((p?.getD []).length + 16) % 2 ^ 64 then
        ⟨c_int_cast ((p?.getD []).length + 16),
          some (sealedBytes g (k?.getD []) (n?.getD []) ((a?.getD []).take alen) (p?.getD [])),
          [.init_attempt, .cleanup]⟩
      else ⟨-1, none, [.init_attempt, .cleanup]⟩ := by
  unfold encrypt_impl
  by_cases h1 : p? = none ∨ k? = none ∨ n? = none ∨ ob = false
  · rw [if_pos h1, if_pos h1]
  rw [if_neg h1, if_neg h1, if_neg (by simp [idealAEAD])]
  by_cases h3 : (n?.getD []).length ≠ 12
  · rw [if_pos h3, if_pos h3]
  rw [if_neg h3, if_neg h3]
  simp only [idealAEAD]
  by_cases h4 : (p?.getD []).length + 16 ≤ ((p?.getD []).length + 16) % 2 ^ 64
  · rw [if_pos h4, if_pos h4]
    have hlen : (streamXor g (k?.getD []) (n?.getD []) (p?.getD []) ++
        tagBytes g (k?.getD []) (n?.getD []) ((a?.getD []).take alen)
          (streamXor g (k?.getD []) (n?.getD []) (p?.getD []))).length =
        (p?.getD []).length + 16 := by
      simp [length_streamXor, length_tagBytes]
    show (⟨c_int_cast (streamXor g (k?.getD []) (n?.getD []) (p?.getD []) ++
        tagBytes g (k?.getD []) (n?.getD []) ((a?.getD []).take alen)
          (streamXor g (k?.getD []) (n?.getD []) (p?.getD []))).length,
      some (streamXor g (k?.getD []) (n?.getD []) (p?.getD []) ++
        tagBytes g (k?.getD []) (n?.getD []) ((a?.getD []).take alen)
          (streamXor g (k?.getD []) (n?.getD []) (p?.getD []))),
      [.init_attempt, .cleanup]⟩ : CallResult) = _
    rw [hlen]
    rfl
  · rw [if_neg h4, if_neg h4]

lemma decrypt_ideal_char (g : Nat) (ct? k? n? a? : Option (List Nat)) (alen : Nat) (ob : Bool) :
    decrypt_impl (idealAEAD g) ct? k? n? a? alen ob =
      if ct? = none ∨ k? = none ∨ n? = none ∨ ob = false then ⟨-1, none, []⟩
      else if (n?.getD []).length ≠ 12 then ⟨-1, none, []⟩
      else if (ct?.getD []).length < 16 then ⟨-2, none, []⟩
      else if (ct?.getD []).drop ((ct?.getD []).length - 16) =
          tagBytes g (k?.getD []) (n?.getD []) ((a?.getD []).take alen)
            ((ct?.getD []).take ((ct?.getD []).length - 16)) then
        ⟨c_int_cast ((ct?.getD []).length - 16),
          some (streamXor g (k?.getD []) (n?.getD [])
            ((ct?.getD []).take ((ct?.getD []).length - 16))),
          [.init_attempt, .cleanup]⟩
      else ⟨-2, none, [.init_attempt, .cleanup]⟩ := by
  unfold decrypt_impl
  by_cases h1 : ct? = none ∨ k? = none ∨ n? = none ∨ ob = false
  · rw [if_pos h1, if_pos h1]
  rw [if_neg h1, if_neg h1, if_neg (by simp [idealAEAD])]
  by_cases h3 : (n?.getD []).length ≠ 12
  · rw [if_pos h3, if_pos h3]
  rw [if_neg h3, if_neg h3]
  by_cases h4 : (ct?.getD []).length < 16
  · rw [if_pos (show (ct?.getD []).length < EVP_AEAD_DEFAULT_TAG_LENGTH from h4), if_pos h4]
  rw [if_neg (show ¬ (ct?.getD []).length < EVP_AEAD_DEFAULT_TAG_LENGTH from h4), if_neg h4]
  simp only [idealAEAD]
  by_cases h5 : (ct?.getD []).drop ((ct?.getD []).length - 16) =
      tagBytes g (k?.getD []) (n?.getD []) ((a?.getD []).take alen)
        ((ct?.getD []).take ((ct?.getD []).length - 16))
  · rw [if_pos (⟨by omega, h5, Nat.sub_le _ _⟩ : 16 ≤ (ct?.getD []).length ∧ _ ∧
      (ct?.getD []).length - 16 ≤ (ct?.getD []).length), if_pos h5]
    have hlen : (streamXor g (k?.getD []) (n?.getD [])
        ((ct?.getD []).take ((ct?.getD []).length - 16))).length =
        (ct?.getD []).length - 16 := by
      rw [length_streamXor, List.length_take]
      omega
    show (⟨c_int_cast (streamXor g (k?.getD []) (n?.getD [])
        ((ct?.getD []).take ((ct?.getD []).length - 16))).length,
      some (streamXor g (k?.getD []) (n?.getD [])
        ((ct?.getD []).take ((ct?.getD []).length - 16))),
      [.init_attempt, .cleanup]⟩ : CallResult) = _
    rw [hlen]
  · rw [if_neg (fun hc => h5 hc.2.1), if_neg h5]

lemma openOp_ideal_none_iff (g : Nat) (ctx n a ct : List Nat) (h16 : 16 ≤ ct.length) :
    (idealAEAD g).openOp ctx n ct a ct.length = none ↔
      ct.drop (ct.length - 16) ≠ tagBytes g ctx n a (ct.take (ct.length - 16)) := by
  simp only [idealAEAD]
  constructor
  · intro hnone htag
    rw [if_pos ⟨h16, htag, Nat.sub_le _ _⟩] at hnone
    simp at hnone
  · intro hne
    rw [if_neg (fun hc => hne hc.2.1)]

lemma encrypt_ideal_status_of_written (g : Nat) (p : List Nat) (k? n? a? : Option (List Nat))
    (alen : Nat) (ob : Bool) (out : List Nat)
    (hw : (encrypt_impl (idealAEAD g) (some p) k? n? a? alen ob).written = some out) :
    (encrypt_impl (idealAEAD g) (some p) k? n? a? alen ob).status =
      c_int_cast (p.length + 16) := by
  rw [encrypt_ideal_char] at hw ⊢
  by_cases h1 : (some p : Option (List Nat)) = none ∨ k? = none ∨ n? = none ∨ ob = false
  · rw [if_pos h1] at hw
    exact absurd hw (by simp)
  rw [if_neg h1] at hw ⊢
  by_cases h3 : (n?.getD []).length ≠ 12
  · rw [if_pos h3] at hw
    exact absurd hw (by simp)
  rw [if_neg h3] at hw ⊢
  by_cases h4 : ((some p : Option (List Nat)).getD []).length + 16 ≤
      (((some p : Option (List Nat)).getD []).length + 16) % 2 ^ 64
  · rw [if_pos h4]
    rfl
  · rw [if_neg h4] at hw
    exact absurd hw (by simp)

lemma decrypt_ideal_status_of_written (g : Nat) (ct : List Nat) (k? n? a? : Option (List Nat))
    (alen : Nat) (ob : Bool) (out : List Nat)
    (hw : (decrypt_impl (idealAEAD g) (some ct) k? n? a? alen ob).written = some out) :
    (decrypt_impl (idealAEAD g) (some ct) k? n? a? alen ob).status =
      c_int_cast (ct.length - 16) := by
  rw [decrypt_ideal_char] at hw ⊢
  by_cases h1 : (some ct : Option (List Nat)) = none ∨ k? = none ∨ n? = none ∨ ob = false
  · rw [if_pos h1] at hw
    exact absurd hw (by simp)
  rw [if_neg h1] at hw ⊢
  by_cases h3 : (n?.getD []).length ≠ 12
  · rw [if_pos h3] at hw
    exact absurd hw (by simp)
  rw [if_neg h3] at hw ⊢
  by_cases h4 : ((some ct : Option (List Nat)).getD []).length < 16
  · rw [if_pos h4] at hw
    exact absurd hw (by simp)
  rw [if_neg h4] at hw ⊢
  by_cases h5 : ((some ct : Option (List Nat)).getD []).drop
      (((some ct : Option (List Nat)).getD []).length - 16) =
      tagBytes g (k?.getD []) (n?.getD []) ((a?.getD []).take alen)
        (((some ct : Option (List Nat)).getD []).take
          (((some ct : Option (List Nat)).getD []).length - 16))
  · rw [if_pos h5]
    rfl
  · rw [if_neg h5] at hw
    exact absurd hw (by simp)

lemma tamper_all (g : Nat) (p k n a : List Nat) (hk : k.length = 32) (hn : n.length = 12) :
    (∀ i j, i < p.length + 16 → j < 8 →
      decrypt_impl (idealAEAD g) (some (flipByteBit (sealedBytes g k n a p) i j))
        (some k) (some n) (some a) a.length true = ⟨-2, none, [.init_attempt, .cleanup]⟩) ∧
    (∀ i j, i < 32 → j < 8 →
      decrypt_impl (idealAEAD g) (some (sealedBytes g k n a p))
        (some (flipByteBit k i j)) (some n) (some a) a.length true =
        ⟨-2, none, [.init_attempt, .cleanup]⟩) ∧
    (∀ i j, i < 12 → j < 8 →
      decrypt_impl (idealAEAD g) (some (sealedBytes g k n a p))
        (some k) (some (flipByteBit n i j)) (some a) a.length true =
        ⟨-2, none, [.init_attempt, .cleanup]⟩) ∧
    (∀ i j, i < a.length → j < 8 →
      decrypt_impl (idealAEAD g) (some (sealedBytes g k n a p))
        (some k) (some n) (some (flipByteBit a i j)) a.length true =
        ⟨-2, none, [.init_attempt, .cleanup]⟩) := by
  refine ⟨fun i j hi hj => ?_, fun i j hi hj => ?_, fun i j hi hj => ?_, fun i j hi hj => ?_⟩
  · exact decrypt_ideal_tamper_ct g k n a (streamXor g k n p)
      (tagBytes g k n a (streamXor g k n p)) i j hn rfl
      (by rw [length_streamXor]; exact hi) hj
  · exact decrypt_ideal_tamper_key g k n a (streamXor g k n p)
      (tagBytes g k n a (streamXor g k n p)) i j hn rfl (by rw [hk]; exact hi) hj
  · exact decrypt_ideal_tamper_nonce g k n a (streamXor g k n p)
      (tagBytes g k n a (streamXor g k n p)) i j hn rfl (by rw [hn]; exact hi) hj
  · exact decrypt_ideal_tamper_aad g k n a (streamXor g k n p)
      (tagBytes g k n a (streamXor g k n p)) i j hn rfl hi hj

/-! ### The claims -/

/-- C1: Round trip for both algorithms: for every plaintext (of any `size_t`
length, in particular lengths 0, 1, 16 and 1000), every 32-byte key, every
12-byte nonce and every AAD (all pointers non-null), encrypting writes the
sealed ciphertext-plus-tag to the output buffer, and decrypting that sealed
output with the same key, nonce and AAD takes the success path and writes
back exactly the original plaintext. -/
theorem C1_round_trip (p k n a : List Nat)
    (hk : k.length = 32) (hn : n.length = 12) (h64 : p.length + 16 < 2 ^ 64) :
    ((encrypt_aes_gcm_256 (some p) (some k) (some n) (some a) a.length true).written =
        some (sealedBytes 1 k n a p) ∧
      (decrypt_aes_gcm_256 (some (sealedBytes 1 k n a p)) (some k) (some n) (some a)
        a.length true).written = some p) ∧
    ((encrypt_chacha20_poly1305 (some p) (some k) (some n) (some a) a.length true).written =
        some (sealedBytes 2 k n a p) ∧
      (decrypt_chacha20_poly1305 (some (sealedBytes 2 k n a p)) (some k) (some n) (some a)
        a.length true).written = some p) := by
  have e1 := encrypt_ideal_eq 1 p k n a a.length hn h64
  have e2 := encrypt_ideal_eq 2 p k n a a.length hn h64
  rw [List.take_length] at e1 e2
  have d1 := decrypt_ideal_roundtrip 1 k n a p hn
  have d2 := decrypt_ideal_roundtrip 2 k n a p hn
  refine ⟨⟨?_, ?_⟩, ?_, ?_⟩
  · show (encrypt_impl (idealAEAD 1) (some p) (some k) (some n) (some a) a.length true).written =
      some (sealedBytes 1 k n a p)
    rw [e1]
  · show (decrypt_impl (idealAEAD 1) (some (sealedBytes 1 k n a p)) (some k) (some n) (some a)
      a.length true).written = some p
    rw [d1]
  · show (encrypt_impl (idealAEAD 2) (some p) (some k) (some n) (some a) a.length true).written =
      some (sealedBytes 2 k n a p)
    rw [e2]
  · show (decrypt_impl (idealAEAD 2) (some (sealedBytes 2 k n a p)) (some k) (some n) (some a)
      a.length true).written = some p
    rw [d2]

/-- C1 witness: the round trip instantiated at the concrete scenario of the
spec (key of 32 zero bytes, nonce of 12 zero bytes, empty AAD, plaintext
"hello"). -/
theorem C1_round_trip_witness :
    ((List.replicate 32 0).length = 32 ∧ (List.replicate 12 0).length = 12 ∧
      [104, 101, 108, 108, 111].length + 16 < 2 ^ 64) ∧
    (decrypt_aes_gcm_256
        (some (sealedBytes 1 (List.replicate 32 0) (List.replicate 12 0) []
          [104, 101, 108, 108, 111]))
        (some (List.replicate 32 0)) (some (List.replicate 12 0)) (some [])
        ([] : List Nat).length true).written = some [104, 101, 108, 108, 111] :=
  ⟨⟨by decide, by decide, by norm_num⟩,
    (C1_round_trip [104, 101, 108, 108, 111] (List.replicate 32 0) (List.replicate 12 0) []
      (by decide) (by decide) (by norm_num)).1.2⟩

/-- C2 counterexample: the length law fails with no upper bound on the
plaintext length.  At plaintext length 2^31 - 16 (a representable `size_t`
on 64-bit platforms) the AES-256-GCM seal succeeds and the sealed bytes are
written, but the `(int)` cast of the `size_t` output length 2^31 makes the
call return -2^31 instead of plaintext_len + 16. -/
theorem C2_length_law_counterexample :
    (encrypt_aes_gcm_256 (some (List.replicate (2 ^ 31 - 16) 0)) (some (List.replicate 32 0))
        (some (List.replicate 12 0)) (some []) 0 true).written =
      some (sealedBytes 1 (List.replicate 32 0) (List.replicate 12 0) []
        (List.replicate (2 ^ 31 - 16) 0)) ∧
    (encrypt_aes_gcm_256 (some (List.replicate (2 ^ 31 - 16) 0)) (some (List.replicate 32 0))
        (some (List.replicate 12 0)) (some []) 0 true).status ≠
      (((List.replicate (2 ^ 31 - 16) (0 : Nat)).length + 16 : Nat) : Int) := by
  have e := encrypt_ideal_eq 1 (List.replicate (2 ^ 31 - 16) 0) (List.replicate 32 0)
    (List.replicate 12 0) [] 0 (by rw [List.length_replicate])
    (by rw [List.length_replicate]; norm_num)
  constructor
  · show (encrypt_impl (idealAEAD 1) (some (List.replicate (2 ^ 31 - 16) 0))
      (some (List.replicate 32 0)) (some (List.replicate 12 0)) (some []) 0 true).written = _
    rw [e]
    rfl
  · show (encrypt_impl (idealAEAD 1) (some (List.replicate (2 ^ 31 - 16) 0))
      (some (List.replicate 32 0)) (some (List.replicate 12 0)) (some []) 0 true).status ≠ _
    rw [e]
    simp only [List.length_replicate]
    norm_num [c_int_cast]

/-- C2 (amended): for both algorithms, whenever encrypt succeeds (bytes are
written) and plaintext_len + 16 < 2^31, the return value equals
plaintext_len + 16; whenever decrypt succeeds and ciphertext_tag_len - 16 <
2^31, the return value equals ciphertext_tag_len - 16.  (For larger lengths
the `size_t` output length is truncated by the `(int)` return type, see the
counterexample.) -/
theorem C2_length_law_amended :
    (∀ (p : List Nat) (k? n? a? : Option (List Nat)) (alen : Nat) (ob : Bool) (out : List Nat),
      p.length + 16 < 2 ^ 31 →
      (encrypt_aes_gcm_256 (some p) k? n? a? alen ob).written = some out →
      (encrypt_aes_gcm_256 (some p) k? n? a? alen ob).status = ((p.length + 16 : Nat) : Int)) ∧
    (∀ (p : List Nat) (k? n? a? : Option (List Nat)) (alen : Nat) (ob : Bool) (out : List Nat),
      p.length + 16 < 2 ^ 31 →
      (encrypt_chacha20_poly1305 (some p) k? n? a? alen ob).written = some out →
      (encrypt_chacha20_poly1305 (some p) k? n? a? alen ob).status =
        ((p.length + 16 : Nat) : Int)) ∧
    (∀ (ct : List Nat) (k? n? a? : Option (List Nat)) (alen : Nat) (ob : Bool) (out : List Nat),
      ct.length - 16 < 2 ^ 31 →
      (decrypt_aes_gcm_256 (some ct) k? n? a? alen ob).written = some out →
      (decrypt_aes_gcm_256 (some ct) k? n? a? alen ob).status =
        ((ct.length - 16 : Nat) : Int)) ∧
    (∀ (ct : List Nat) (k? n? a? : Option (List Nat)) (alen : Nat) (ob : Bool) (out : List Nat),
      ct.length - 16 < 2 ^ 31 →
      (decrypt_chacha20_poly1305 (some ct) k? n? a? alen ob).written = some out →
      (decrypt_chacha20_poly1305 (some ct) k? n? a? alen ob).status =
        ((ct.length - 16 : Nat) : Int)) := by
  refine ⟨fun p k? n? a? alen ob out hb hw => ?_, fun p k? n? a? alen ob out hb hw => ?_,
    fun ct k? n? a? alen ob out hb hw => ?_, fun ct k? n? a? alen ob out hb hw => ?_⟩
  · rw [show (encrypt_aes_gcm_256 (some p) k? n? a? alen ob).status =
      c_int_cast (p.length + 16) from encrypt_ideal_status_of_written 1 p k? n? a? alen ob out hw]
    exact c_int_cast_of_lt hb
  · rw [show (encrypt_chacha20_poly1305 (some p) k? n? a? alen ob).status =
      c_int_cast (p.length + 16) from encrypt_ideal_status_of_written 2 p k? n? a? alen ob out hw]
    exact c_int_cast_of_lt hb
  · rw [show (decrypt_aes_gcm_256 (some ct) k? n? a? alen ob).status =
      c_int_cast (ct.length - 16) from decrypt_ideal_status_of_written 1 ct k? n? a? alen ob out hw]
    exact c_int_cast_of_lt hb
  · rw [show (decrypt_chacha20_poly1305 (some ct) k? n? a? alen ob).status =
      c_int_cast (ct.length - 16) from decrypt_ideal_status_of_written 2 ct k? n? a? alen ob out hw]
    exact c_int_cast_of_lt hb

/-- C2 witness: the amended length law at a 3-byte plaintext. -/
theorem C2_length_law_amended_witness :
    (([1, 2, 3] : List Nat).length + 16 < 2 ^ 31 ∧
      (encrypt_aes_gcm_256 (some [1, 2, 3]) (some (List.replicate 32 0))
        (some (List.replicate 12 0)) (some []) 0 true).written =
        some (sealedBytes 1 (List.replicate 32 0) (List.replicate 12 0) [] [1, 2, 3])) ∧
    (encrypt_aes_gcm_256 (some [1, 2, 3]) (some (List.replicate 32 0))
      (some (List.replicate 12 0)) (some []) 0 true).status =
      ((([1, 2, 3] : List Nat).length + 16 : Nat) : Int) :=
  ⟨⟨by norm_num, by decide⟩,
    C2_length_law_amended.1 [1, 2, 3] (some (List.replicate 32 0)) (some (List.replicate 12 0))
      (some []) 0 true (sealedBytes 1 (List.replicate 32 0) (List.replicate 12 0) [] [1, 2, 3])
      (by norm_num) (by decide)⟩

/-- C3: Tamper detection for both algorithms: for the sealed output of an
encrypt call, flipping any single bit of any byte of the ciphertext-plus-tag,
of the 32-byte key, of the 12-byte nonce, or of the AAD before calling
decrypt (all other preconditions still met) makes decrypt return -2
(AuthenticationFailure) and write no plaintext bytes; decrypt is a total
function, so no call crashes. -/
theorem C3_tamper_detection (p k n a : List Nat)
    (hk : k.length = 32) (hn : n.length = 12) (h64 : p.length + 16 < 2 ^ 64) :
    ((encrypt_aes_gcm_256 (some p) (some k) (some n) (some a) a.length true).written =
        some (sealedBytes 1 k n a p) ∧
      (∀ i j, i < p.length + 16 → j < 8 →
        (decrypt_aes_gcm_256 (some (flipByteBit (sealedBytes 1 k n a p) i j))
          (some k) (some n) (some a) a.length true).status = -2 ∧
        (decrypt_aes_gcm_256 (some (flipByteBit (sealedBytes 1 k n a p) i j))
          (some k) (some n) (some a) a.length true).written = none) ∧
      (∀ i j, i < 32 → j < 8 →
        (decrypt_aes_gcm_256 (some (sealedBytes 1 k n a p)) (some (flipByteBit k i j))
          (some n) (some a) a.length true).status = -2 ∧
        (decrypt_aes_gcm_256 (some (sealedBytes 1 k n a p)) (some (flipByteBit k i j))
          (some n) (some a) a.length true).written = none) ∧
      (∀ i j, i < 12 → j < 8 →
        (decrypt_aes_gcm_256 (some (sealedBytes 1 k n a p)) (some k)
          (some (flipByteBit n i j)) (some a) a.length true).status = -2 ∧
        (decrypt_aes_gcm_256 (some (sealedBytes 1 k n a p)) (some k)
          (some (flipByteBit n i j)) (some a) a.length true).written = none) ∧
      (∀ i j, i < a.length → j < 8 →
        (decrypt_aes_gcm_256 (some (sealedBytes 1 k n a p)) (some k) (some n)
          (some (flipByteBit a i j)) a.length true).status = -2 ∧
        (decrypt_aes_gcm_256 (some (sealedBytes 1 k n a p)) (some k) (some n)
          (some (flipByteBit a i j)) a.length true).written = none)) ∧
    ((encrypt_chacha20_poly1305 (some p) (some k) (some n) (some a) a.length true).written =
        some (sealedBytes 2 k n a p) ∧
      (∀ i j, i < p.length + 16 → j < 8 →
        (decrypt_chacha20_poly1305 (some (flipByteBit (sealedBytes 2 k n a p) i j))
          (some k) (some n) (some a) a.length true).status = -2 ∧
        (decrypt_chacha20_poly1305 (some (flipByteBit (sealedBytes 2 k n a p) i j))
          (some k) (some n) (some a) a.length true).written = none) ∧
      (∀ i j, i < 32 → j < 8 →
        (decrypt_chacha20_poly1305 (some (sealedBytes 2 k n a p)) (some (flipByteBit k i j))
          (some n) (some a) a.length true).status = -2 ∧
        (decrypt_chacha20_poly1305 (some (sealedBytes 2 k n a p)) (some (flipByteBit k i j))
          (some n) (some a) a.length true).written = none) ∧
      (∀ i j, i < 12 → j < 8 →
        (decrypt_chacha20_poly1305 (some (sealedBytes 2 k n a p)) (some k)
          (some (flipByteBit n i j)) (some a) a.length true).status = -2 ∧
        (decrypt_chacha20_poly1305 (some (sealedBytes 2 k n a p)) (some k)
          (some (flipByteBit n i j)) (some a) a.length true).written = none) ∧
      (∀ i j, i < a.length → j < 8 →
        (decrypt_chacha20_poly1305 (some (sealedBytes 2 k n a p)) (some k) (some n)
          (some (flipByteBit a i j)) a.length true).status = -2 ∧
        (decrypt_chacha20_poly1305 (some (sealedBytes 2 k n a p)) (some k) (some n)
          (some (flipByteBit a i j)) a.length true).written = none)) := by
  obtain ⟨hA1, hB1, hC1, hD1⟩ := tamper_all 1 p k n a hk hn
  obtain ⟨hA2, hB2, hC2, hD2⟩ := tamper_all 2 p k n a hk hn
  have e1 := encrypt_ideal_eq 1 p k n a a.length hn h64
  have e2 := encrypt_ideal_eq 2 p k n a a.length hn h64
  rw [List.take_length] at e1 e2
  refine ⟨⟨by rw [show encrypt_aes_gcm_256 (some p) (some k) (some n) (some a) a.length true =
      encrypt_impl (idealAEAD 1) (some p) (some k) (some n) (some a) a.length true from rfl, e1],
    fun i j hi hj => ⟨by rw [show decrypt_aes_gcm_256 (some (flipByteBit (sealedBytes 1 k n a p) i j))
        (some k) (some n) (some a) a.length true = _ from hA1 i j hi hj],
      by rw [show decrypt_aes_gcm_256 (some (flipByteBit (sealedBytes 1 k n a p) i j))
        (some k) (some n) (some a) a.length true = _ from hA1 i j hi hj]⟩,
    fun i j hi hj => ⟨by rw [show decrypt_aes_gcm_256 (some (sealedBytes 1 k n a p))
        (some (flipByteBit k i j)) (some n) (some a) a.length true = _ from hB1 i j hi hj],
      by rw [show decrypt_aes_gcm_256 (some (sealedBytes 1 k n a p))
        (some (flipByteBit k i j)) (some n) (some a) a.length true = _ from hB1 i j hi hj]⟩,
    fun i j hi hj => ⟨by rw [show decrypt_aes_gcm_256 (some (sealedBytes 1 k n a p))
        (some k) (some (flipByteBit n i j)) (some a) a.length true = _ from hC1 i j hi hj],
      by rw [show decrypt_aes_gcm_256 (some (sealedBytes 1 k n a p))
        (some k) (some (flipByteBit n i j)) (some a) a.length true = _ from hC1 i j hi hj]⟩,
    fun i j hi hj => ⟨by rw [show decrypt_aes_gcm_256 (some (sealedBytes 1 k n a p))
        (some k) (some n) (some (flipByteBit a i j)) a.length true = _ from hD1 i j hi hj],
      by rw [show decrypt_aes_gcm_256 (some (sealedBytes 1 k n a p))
        (some k) (some n) (some (flipByteBit a i j)) a.length true = _ from hD1 i j hi hj]⟩⟩,
    ⟨by rw [show encrypt_chacha20_poly1305 (some p) (some k) (some n) (some a) a.length true =
      encrypt_impl (idealAEAD 2) (some p) (some k) (some n) (some a) a.length true from rfl, e2],
    fun i j hi hj => ⟨by rw [show decrypt_chacha20_poly1305
        (some (flipByteBit (sealedBytes 2 k n a p) i j))
        (some k) (some n) (some a) a.length true = _ from hA2 i j hi hj],
      by rw [show decrypt_chacha20_poly1305 (some (flipByteBit (sealedBytes 2 k n a p) i j))
        (some k) (some n) (some a) a.length true = _ from hA2 i j hi hj]⟩,
    fun i j hi hj => ⟨by rw [show decrypt_chacha20_poly1305 (some (sealedBytes 2 k n a p))
        (some (flipByteBit k i j)) (some n) (some a) a.length true = _ from hB2 i j hi hj],
      by rw [show decrypt_chacha20_poly1305 (some (sealedBytes 2 k n a p))
        (some (flipByteBit k i j)) (some n) (some a) a.length true = _ from hB2 i j hi hj]⟩,
    fun i j hi hj => ⟨by rw [show decrypt_chacha20_poly1305 (some (sealedBytes 2 k n a p))
        (some k) (some (flipByteBit n i j)) (some a) a.length true = _ from hC2 i j hi hj],
      by rw [show decrypt_chacha20_poly1305 (some (sealedBytes 2 k n a p))
        (some k) (some (flipByteBit n i j)) (some a) a.length true = _ from hC2 i j hi hj]⟩,
    fun i j hi hj => ⟨by rw [show decrypt_chacha20_poly1305 (some (sealedBytes 2 k n a p))
        (some k) (some n) (some (flipByteBit a i j)) a.length true = _ from hD2 i j hi hj],
      by rw [show decrypt_chacha20_poly1305 (some (sealedBytes 2 k n a p))
        (some k) (some n) (some (flipByteBit a i j)) a.length true = _ from hD2 i j hi hj]⟩⟩⟩

/-- C3 witness: tamper detection at a concrete instance: plaintext [1], zero
key and nonce, AAD [7]; flipping bit 0 of byte 0 of the sealed output (AES)
and bit 0 of byte 0 of the AAD (ChaCha) both give return value -2. -/
theorem C3_tamper_detection_witness :
    ((List.replicate 32 0 : List Nat).length = 32 ∧
      (List.replicate 12 0 : List Nat).length = 12 ∧
      ([1] : List Nat).length + 16 < 2 ^ 64 ∧ (0 : Nat) < [1].length + 16 ∧ (0 : Nat) < 8 ∧
      (0 : Nat) < ([7] : List Nat).length) ∧
    (decrypt_aes_gcm_256 (some (flipByteBit (sealedBytes 1 (List.replicate 32 0)
        (List.replicate 12 0) [7] [1]) 0 0)) (some (List.replicate 32 0))
      (some (List.replicate 12 0)) (some [7]) ([7] : List Nat).length true).status = -2 ∧
    (decrypt_chacha20_poly1305 (some (sealedBytes 2 (List.replicate 32 0) (List.replicate 12 0)
        [7] [1])) (some (List.replicate 32 0)) (some (List.replicate 12 0))
      (some (flipByteBit [7] 0 0)) ([7] : List Nat).length true).status = -2 :=
  ⟨⟨by decide, by decide, by norm_num, by norm_num, by norm_num, by norm_num⟩,
    ((C3_tamper_detection [1] (List.replicate 32 0) (List.replicate 12 0) [7]
      (by decide) (by decide) (by norm_num)).1.2.1 0 0 (by norm_num) (by norm_num)).1,
    ((C3_tamper_detection [1] (List.replicate 32 0) (List.replicate 12 0) [7]
      (by decide) (by decide) (by norm_num)).2.2.2.2.2 0 0 (by norm_num) (by norm_num)).1⟩

/-- C4: Short-input guard for both algorithms: every decrypt call with
non-null pointers, a 12-byte nonce and a combined input shorter than 16
bytes returns -2 immediately, writes nothing and records no context event,
so no algorithm context is initialized and the underlying primitive is
never invoked. -/
theorem C4_short_input_guard (ct k n : List Nat) (a? : Option (List Nat)) (alen : Nat)
    (hshort : ct.length < 16) (hn : n.length = 12) :
    decrypt_aes_gcm_256 (some ct) (some k) (some n) a? alen true = ⟨-2, none, []⟩ ∧
    decrypt_chacha20_poly1305 (some ct) (some k) (some n) a? alen true = ⟨-2, none, []⟩ := by
  constructor
  · show decrypt_impl (idealAEAD 1) (some ct) (some k) (some n) a? alen true = _
    rw [decrypt_ideal_char, if_neg (by simp), if_neg (by simp [hn]),
      if_pos (by simpa using hshort)]
  · show decrypt_impl (idealAEAD 2) (some ct) (some k) (some n) a? alen true = _
    rw [decrypt_ideal_char, if_neg (by simp), if_neg (by simp [hn]),
      if_pos (by simpa using hshort)]

/-- C4 witness: the short-input guard at a 3-byte input. -/
theorem C4_short_input_guard_witness :
    (([1, 2, 3] : List Nat).length < 16 ∧ (List.replicate 12 0 : List Nat).length = 12) ∧
    decrypt_aes_gcm_256 (some [1, 2, 3]) (some []) (some (List.replicate 12 0)) none 0 true =
      ⟨-2, none, []⟩ :=
  ⟨⟨by norm_num, by decide⟩,
    (C4_short_input_guard [1, 2, 3] [] (List.replicate 12 0) none 0 (by norm_num) (by decide)).1⟩

/-- C5: Nonce-length validation for all four operations: every call with
non-null pointers and a nonce whose length differs from 12 returns -1 with
nothing written and no context event, hence before any cryptographic work,
regardless of all other arguments. -/
theorem C5_nonce_length_validation (p k n : List Nat) (a? : Option (List Nat)) (alen : Nat)
    (hn : n.length ≠ 12) :
    encrypt_aes_gcm_256 (some p) (some k) (some n) a? alen true = ⟨-1, none, []⟩ ∧
    decrypt_aes_gcm_256 (some p) (some k) (some n) a? alen true = ⟨-1, none, []⟩ ∧
    encrypt_chacha20_poly1305 (some p) (some k) (some n) a? alen true = ⟨-1, none, []⟩ ∧
    decrypt_chacha20_poly1305 (some p) (some k) (some n) a? alen true = ⟨-1, none, []⟩ := by
  refine ⟨?_, ?_, ?_, ?_⟩
  · show encrypt_impl (idealAEAD 1) (some p) (some k) (some n) a? alen true = _
    rw [encrypt_ideal_char, if_neg (by simp), if_pos (by simpa using hn)]
  · show decrypt_impl (idealAEAD 1) (some p) (some k) (some n) a? alen true = _
    rw [decrypt_ideal_char, if_neg (by simp), if_pos (by simpa using hn)]
  · show encrypt_impl (idealAEAD 2) (some p) (some k) (some n) a? alen true = _
    rw [encrypt_ideal_char, if_neg (by simp), if_pos (by simpa using hn)]
  · show decrypt_impl (idealAEAD 2) (some p) (some k) (some n) a? alen true = _
    rw [decrypt_ideal_char, if_neg (by simp), if_pos (by simpa using hn)]

/-- C5 witness: an 11-byte nonce is rejected by all four operations. -/
theorem C5_nonce_length_validation_witness :
    (List.replicate 11 0 : List Nat).length ≠ 12 ∧
    encrypt_aes_gcm_256 (some [1]) (some []) (some (List.replicate 11 0)) none 0 true =
      ⟨-1, none, []⟩ :=
  ⟨by decide,
    (C5_nonce_length_validation [1] [] (List.replicate 11 0) none 0 (by decide)).1⟩

/-- C6 counterexample: the decrypt failure taxonomy is not exact as claimed.
A successful AES decrypt of a well-formed sealed input of length
2^32 + 15 (no null pointer, nonce length 12, tag verifies) returns -1,
because the `(int)` cast of the plaintext length 2^32 - 1 wraps to -1 —
the InvalidArgument sentinel is produced by a path that is not
pointer/length-class misuse. -/
theorem C6_taxonomy_counterexample :
    (decrypt_aes_gcm_256
        (some (sealedBytes 1 (List.replicate 32 0) (List.replicate 12 0) []
          (List.replicate (2 ^ 32 - 1) 0)))
        (some (List.replicate 32 0)) (some (List.replicate 12 0)) (some [])
        ([] : List Nat).length true).status = -1 ∧
    ¬ ((some (sealedBytes 1 (List.replicate 32 0) (List.replicate 12 0) []
          (List.replicate (2 ^ 32 - 1) 0)) : Option (List Nat)) = none ∨
        (some (List.replicate 32 0) : Option (List Nat)) = none ∨
        (some (List.replicate 12 0) : Option (List Nat)) = none ∨ true = false ∨
        ((some (List.replicate 12 0) : Option (List Nat)).getD []).length ≠ 12) := by
  constructor
  · show (decrypt_impl (idealAEAD 1)
        (some (sealedBytes 1 (List.replicate 32 0) (List.replicate 12 0) []
          (List.replicate (2 ^ 32 - 1) 0)))
        (some (List.replicate 32 0)) (some (List.replicate 12 0)) (some [])
        ([] : List Nat).length true).status = -1
    rw [decrypt_ideal_roundtrip 1 (List.replicate 32 0) (List.replicate 12 0) []
      (List.replicate (2 ^ 32 - 1) 0) (by rw [List.length_replicate])]
    rw [show (List.replicate (2 ^ 32 - 1) (0 : Nat)).length = 2 ^ 32 - 1 from
      List.length_replicate _ _]
    norm_num [c_int_cast]
  · intro h
    rcases h with h | h | h | h | h
    · exact Option.noConfusion h
    · exact Option.noConfusion h
    · exact Option.noConfusion h
    · exact Bool.noConfusion h
    · exact h (by rw [Option.getD_some, List.length_replicate])

lemma decrypt_ideal_taxonomy (g : Nat) (ct? k? n? a? : Option (List Nat)) (alen : Nat)
    (ob : Bool) (hb : (ct?.getD []).length < 2 ^ 31 + 16) :
    ((decrypt_impl (idealAEAD g) ct? k? n? a? alen ob).status = -1 ↔
      (ct? = none ∨ k? = none ∨ n? = none ∨ ob = false ∨ (n?.getD []).length ≠ 12)) ∧
    ((decrypt_impl (idealAEAD g) ct? k? n? a? alen ob).status = -2 ↔
      (¬ (ct? = none ∨ k? = none ∨ n? = none ∨ ob = false ∨ (n?.getD []).length ≠ 12) ∧
        ((ct?.getD []).length < 16 ∨
          (idealAEAD g).openOp (k?.getD []) (n?.getD []) (ct?.getD [])
            ((a?.getD []).take alen) (ct?.getD []).length = none))) := by
  rw [decrypt_ideal_char]
  by_cases h1 : ct? = none ∨ k? = none ∨ n? = none ∨ ob = false
  · rw [if_pos h1]
    exact ⟨⟨fun _ => by tauto, fun _ => rfl⟩,
      ⟨fun h2 => absurd h2 (by norm_num), fun h2 => (h2.1 (by tauto)).elim⟩⟩
  rw [if_neg h1]
  by_cases h3 : (n?.getD []).length ≠ 12
  · rw [if_pos h3]
    exact ⟨⟨fun _ => by tauto, fun _ => rfl⟩,
      ⟨fun h2 => absurd h2 (by norm_num), fun h2 => (h2.1 (by tauto)).elim⟩⟩
  rw [if_neg h3]
  by_cases h4 : (ct?.getD []).length < 16
  · rw [if_pos h4]
    exact ⟨⟨fun h2 => absurd h2 (by norm_num), fun hd => (show False by tauto).elim⟩,
      ⟨fun _ => ⟨by tauto, Or.inl h4⟩, fun _ => rfl⟩⟩
  rw [if_neg h4]
  have h16 : 16 ≤ (ct?.getD []).length := by omega
  have hiff := openOp_ideal_none_iff g (k?.getD []) (n?.getD []) ((a?.getD []).take alen)
    (ct?.getD []) h16
  by_cases h5 : (ct?.getD []).drop ((ct?.getD []).length - 16) =
      tagBytes g (k?.getD []) (n?.getD []) ((a?.getD []).take alen)
        ((ct?.getD []).take ((ct?.getD []).length - 16))
  · rw [if_pos h5]
    have hne1 : c_int_cast ((ct?.getD []).length - 16) ≠ -1 := by
      rw [c_int_cast_of_lt (by omega)]
      omega
    have hne2 : c_int_cast ((ct?.getD []).length - 16) ≠ -2 := by
      rw [c_int_cast_of_lt (by omega)]
      omega
    exact ⟨⟨fun h2 => absurd h2 hne1, fun hd => (show False by tauto).elim⟩,
      ⟨fun h2 => absurd h2 hne2,
        fun h2 => (h2.2.elim (fun hs => h4 hs) (fun ho => hiff.mp ho h5)).elim⟩⟩
  · rw [if_neg h5]
    exact ⟨⟨fun h2 => absurd h2 (by norm_num), fun hd => (show False by tauto).elim⟩,
      ⟨fun _ => ⟨by tauto, Or.inr (hiff.mpr h5)⟩, fun _ => rfl⟩⟩

/-- C6 (amended): for both algorithms, on inputs whose plaintext length
ciphertext_tag_len - 16 is below 2^31 (so that the `(int)` return value is
faithful), decrypt returns -1 exactly when a required pointer is null or
the nonce length differs from 12, and returns -2 exactly when the input is
shorter than 16 bytes or the primitive's open (tag verification) fails.
(The caller's key-buffer length has no length argument and is not
observable; the code's key-length check tests the algorithm constant.  For
larger inputs the truncated success return can collide with the error
sentinels, see the counterexample.) -/
theorem C6_decrypt_taxonomy_amended (ct? k? n? a? : Option (List Nat)) (alen : Nat) (ob : Bool)
    (hb : (ct?.getD []).length < 2 ^ 31 + 16) :
    (((decrypt_aes_gcm_256 ct? k? n? a? alen ob).status = -1 ↔
        (ct? = none ∨ k? = none ∨ n? = none ∨ ob = false ∨ (n?.getD []).length ≠ 12)) ∧
      ((decrypt_aes_gcm_256 ct? k? n? a? alen ob).status = -2 ↔
        (¬ (ct? = none ∨ k? = none ∨ n? = none ∨ ob = false ∨ (n?.getD []).length ≠ 12) ∧
          ((ct?.getD []).length < 16 ∨
            EVP_aead_aes_256_gcm.openOp (k?.getD []) (n?.getD []) (ct?.getD [])
              ((a?.getD []).take alen) (ct?.getD []).length = none)))) ∧
    (((decrypt_chacha20_poly1305 ct? k? n? a? alen ob).status = -1 ↔
        (ct? = none ∨ k? = none ∨ n? = none ∨ ob = false ∨ (n?.getD []).length ≠ 12)) ∧
      ((decrypt_chacha20_poly1305 ct? k? n? a? alen ob).status = -2 ↔
        (¬ (ct? = none ∨ k? = none ∨ n? = none ∨ ob = false ∨ (n?.getD []).length ≠ 12) ∧
          ((ct?.getD []).length < 16 ∨
            EVP_aead_chacha20_poly1305.openOp (k?.getD []) (n?.getD []) (ct?.getD [])
              ((a?.getD []).take alen) (ct?.getD []).length = none)))) :=
  ⟨decrypt_ideal_taxonomy 1 ct? k? n? a? alen ob hb,
    decrypt_ideal_taxonomy 2 ct? k? n? a? alen ob hb⟩

/-- C6 witness: the amended taxonomy at a concrete short input. -/
theorem C6_decrypt_taxonomy_amended_witness :
    ((some [9] : Option (List Nat)).getD []).length < 2 ^ 31 + 16 ∧
    ((decrypt_aes_gcm_256 (some [9]) (some []) (some (List.replicate 12 0)) none 0 true).status
        = -1 ↔
      ((some [9] : Option (List Nat)) = none ∨ (some ([] : List Nat)) = none ∨
        (some (List.replicate 12 0) : Option (List Nat)) = none ∨ true = false ∨
        ((some (List.replicate 12 0) : Option (List Nat)).getD []).length ≠ 12)) :=
  ⟨by norm_num,
    (C6_decrypt_taxonomy_amended (some [9]) (some []) (some (List.replicate 12 0)) none 0 true
      (by norm_num)).1.1⟩

/-- C7: Encrypt sentinel collapse.  For any algorithm descriptor whose
constants pass validation (in particular both hardcoded engines), an encrypt
call that fails in the primitive's context initialization, or in its seal
step, returns the same sentinel -1 that argument validation returns, so the
return value cannot distinguish EngineFailure from InvalidArgument. -/
theorem C7_encrypt_sentinel_collapse (aead_alg : EVP_AEAD) (p k n : List Nat)
    (a? : Option (List Nat)) (alen : Nat)
    (hkl : aead_alg.key_length = 32) (hn : n.length = 12) :
    (aead_alg.ctx_init k = none →
      encrypt_impl aead_alg (some p) (some k) (some n) a? alen true =
        ⟨-1, none, [.init_attempt, .cleanup]⟩) ∧
    (∀ ctx, aead_alg.ctx_init k = some ctx →
      aead_alg.sealOp ctx n p ((a?.getD []).take alen)
        ((p.length + aead_alg.max_overhead) % 2 ^ 64) = none →
      encrypt_impl aead_alg (some p) (some k) (some n) a? alen true =
        ⟨-1, none, [.init_attempt, .cleanup]⟩) := by
  constructor
  · intro hinit
    unfold encrypt_impl
    rw [if_neg (by simp), if_neg (by simp [hkl]), if_neg (by simp [hn])]
    simp only [Option.getD_some, hinit]
  · intro ctx hinit hseal
    unfold encrypt_impl
    rw [if_neg (by simp), if_neg (by simp [hkl]), if_neg (by simp [hn])]
    simp only [Option.getD_some, hinit, hseal]

/-- C7 witness: the sentinel collapse at a concretely misconfigured engine
whose context initialization fails. -/
theorem C7_encrypt_sentinel_collapse_witness :
    (failingAEAD.key_length = 32 ∧ (List.replicate 12 0 : List Nat).length = 12 ∧
      failingAEAD.ctx_init [] = none) ∧
    encrypt_impl failingAEAD (some [5]) (some []) (some (List.replicate 12 0)) none 0 true =
      ⟨-1, none, [.init_attempt, .cleanup]⟩ :=
  ⟨⟨rfl, by decide, rfl⟩,
    (C7_encrypt_sentinel_collapse failingAEAD [5] [] (List.replicate 12 0) none 0 rfl
      (by decide)).1 rfl⟩

/-- C8: Context release on every path, for any algorithm descriptor (hence
for all four operations): the context-event trace of every call is either
empty (validation rejected the call before any context existed) or exactly
one initialization attempt followed by exactly one cleanup, so whenever
context initialization is attempted — successful or not, and whether seal
or open succeeds or fails — the context is released exactly once, before
the call returns, and never escapes the call. -/
theorem C8_context_release (aead_alg : EVP_AEAD) (p? k? n? a? : Option (List Nat))
    (alen : Nat) (ob : Bool) :
    ((encrypt_impl aead_alg p? k? n? a? alen ob).events = [] ∨
      (encrypt_impl aead_alg p? k? n? a? alen ob).events = [.init_attempt, .cleanup]) ∧
    ((decrypt_impl aead_alg p? k? n? a? alen ob).events = [] ∨
      (decrypt_impl aead_alg p? k? n? a? alen ob).events = [.init_attempt, .cleanup]) := by
  constructor
  · by_cases h1 : p? = none ∨ k? = none ∨ n? = none ∨ ob = false
    · left
      unfold encrypt_impl
      rw [if_pos h1]
    by_cases h2 : aead_alg.key_length ≠ 32
    · left
      unfold encrypt_impl
      rw [if_neg h1, if_pos h2]
    by_cases h3 : (n?.getD []).length ≠ 12
    · left
      unfold encrypt_impl
      rw [if_neg h1, if_neg h2, if_pos h3]
    right
    unfold encrypt_impl
    rw [if_neg h1, if_neg h2, if_neg h3]
    cases hc : aead_alg.ctx_init (k?.getD []) with
    | none => simp
    | some ctx =>
      cases hs : aead_alg.sealOp ctx (n?.getD []) (p?.getD []) ((a?.getD []).take alen)
          (((p?.getD []).length + aead_alg.max_overhead) % 18446744073709551616) with
      | none => simp [hs]
      | some out => simp [hs]
  · by_cases h1 : p? = none ∨ k? = none ∨ n? = none ∨ ob = false
    · left
      unfold decrypt_impl
      rw [if_pos h1]
    by_cases h2 : aead_alg.key_length ≠ 32
    · left
      unfold decrypt_impl
      rw [if_neg h1, if_pos h2]
    by_cases h3 : (n?.getD []).length ≠ 12
    · left
      unfold decrypt_impl
      rw [if_neg h1, if_neg h2, if_pos h3]
    by_cases h4 : (p?.getD []).length < EVP_AEAD_DEFAULT_TAG_LENGTH
    · left
      unfold decrypt_impl
      rw [if_neg h1, if_neg h2, if_neg h3, if_pos h4]
    right
    unfold decrypt_impl
    rw [if_neg h1, if_neg h2, if_neg h3, if_neg h4]
    cases hc : aead_alg.ctx_init (k?.getD []) with
    | none => simp
    | some ctx =>
      cases hs : aead_alg.openOp ctx (n?.getD []) (p?.getD []) ((a?.getD []).take alen)
          (p?.getD []).length with
      | none => simp [hs]
      | some out => simp [hs]

/-- C9: Validation precedence in decrypt, for both algorithms: when a call
both fails pointer/nonce-length validation and has an input shorter than 16
bytes, the result is -1 (InvalidArgument), never -2, because the
null-pointer and length checks run before the short-input check. -/
theorem C9_validation_precedence (ct? k? n? a? : Option (List Nat)) (alen : Nat) (ob : Bool)
    (hmis : ct? = none ∨ k? = none ∨ n? = none ∨ ob = false ∨ (n?.getD []).length ≠ 12)
    (hshort : (ct?.getD []).length < 16) :
    (decrypt_aes_gcm_256 ct? k? n? a? alen ob).status = -1 ∧
    (decrypt_chacha20_poly1305 ct? k? n? a? alen ob).status = -1 := by
  constructor
  · show (decrypt_impl (idealAEAD 1) ct? k? n? a? alen ob).status = -1
    rw [decrypt_ideal_char]
    by_cases h1 : ct? = none ∨ k? = none ∨ n? = none ∨ ob = false
    · rw [if_pos h1]
    · rw [if_neg h1, if_pos (show (n?.getD []).length ≠ 12 by tauto)]
  · show (decrypt_impl (idealAEAD 2) ct? k? n? a? alen ob).status = -1
    rw [decrypt_ideal_char]
    by_cases h1 : ct? = none ∨ k? = none ∨ n? = none ∨ ob = false
    · rw [if_pos h1]
    · rw [if_neg h1, if_pos (show (n?.getD []).length ≠ 12 by tauto)]

/-- C9 witness: a call with an 11-byte nonce and a 0-byte input returns -1. -/
theorem C9_validation_precedence_witness :
    (((some [] : Option (List Nat)) = none ∨ (some [] : Option (List Nat)) = none ∨
        (some (List.replicate 11 0) : Option (List Nat)) = none ∨ true = false ∨
        ((some (List.replicate 11 0) : Option (List Nat)).getD []).length ≠ 12) ∧
      ((some [] : Option (List Nat)).getD []).length < 16) ∧
    (decrypt_aes_gcm_256 (some []) (some []) (some (List.replicate 11 0)) none 0 true).status
      = -1 :=
  ⟨⟨by right; right; right; right; decide, by norm_num⟩,
    (C9_validation_precedence (some []) (some []) (some (List.replicate 11 0)) none 0 true
      (by right; right; right; right; decide) (by norm_num)).1⟩

/-- C10: The AAD pointer is never validated, for any algorithm descriptor
(hence for all four operations): a null `aad` pointer is treated exactly
like a pointer to an empty buffer for every `aad_len`, and when
`aad_len = 0` the entire call result is identical whether `aad` is null or
any non-null pointer — the operation behaves as with empty AAD. -/
theorem C10_aad_not_validated (aead_alg : EVP_AEAD) (p? k? n? : Option (List Nat))
    (alen : Nat) (ob : Bool) (l : List Nat) :
    (encrypt_impl aead_alg p? k? n? none alen ob =
        encrypt_impl aead_alg p? k? n? (some []) alen ob) ∧
    (decrypt_impl aead_alg p? k? n? none alen ob =
        decrypt_impl aead_alg p? k? n? (some []) alen ob) ∧
    (encrypt_impl aead_alg p? k? n? none 0 ob =
        encrypt_impl aead_alg p? k? n? (some l) 0 ob) ∧
    (decrypt_impl aead_alg p? k? n? none 0 ob =
        decrypt_impl aead_alg p? k? n? (some l) 0 ob) :=
  ⟨rfl, rfl, rfl, rfl⟩

end NativeCrypto
